import Mathlib

/-!
Shallow embedding of the field-extraction engine of the Bol-scrapper
repository (`src/bol_scraper/scraper/bol.py`).

The extraction engine operates on an already parsed HTML document through
the BeautifulSoup query interface.  BeautifulSoup itself is an external
library, so a document (`Soup`) is modelled as the interface the engine
consumes: a CSS query oracle (`selectOne` / `select`, delegated by the code
to the external CSS engine) together with the document-order list of all
element nodes (`allNodes`), over which the `find` / `find_all` filters that
the engine builds itself (tag name, CSS class membership, case-insensitive
regex label match) are modelled concretely.

Python floats are modelled as exact rationals: every claim compares parsed
prices against decimal literals, and Python's `float` string parsing and
literal comparison agree with the exact-rational reading on all such
comparisons.
-/

namespace BolScraper

/-- A following sibling node, as consumed by `find_next_sibling`: only its
tag name and its stripped text are ever read. -/
structure SibNode where
  name : String
  getText : String
deriving DecidableEq, Repr

/-- An element node of the parsed document.  `strAttr` is BeautifulSoup's
`.string` property (present only when the element has a single string
child); `getText` is `get_text(strip=True)`; `attrs` the attribute map;
`siblingsAfter` the following siblings in document order. -/
structure Element where
  name : String
  classes : List String
  strAttr : Option String
  getText : String
  attrs : List (String × String)
  siblingsAfter : List SibNode
deriving DecidableEq, Repr

/-- `element.get(key)`: attribute lookup, `None` when absent. -/
def Element.get (e : Element) (key : String) : Option String :=
  (e.attrs.find? (fun p => p.1 == key)).map (fun p => p.2)

/-- `element.find_next_sibling(name)`: first following sibling with the
given tag name. -/
def Element.findNextSibling (e : Element) (name : String) : Option SibNode :=
  e.siblingsAfter.find? (fun s => s.name == name)

/-- A parsed document, i.e. the BeautifulSoup interface the engine uses.
`selectOne`/`select` are the external CSS engine; `allNodes` is the
document-order element list traversed by `find` / `find_all`. -/
structure Soup where
  selectOne : String → Option Element
  select : String → List Element
  allNodes : List Element

/-- Does `hay` start with `needle`? -/
def listStartsWith [BEq α] : List α → List α → Bool
  | _, [] => true
  | [], _ :: _ => false
  | a :: as, b :: bs => a == b && listStartsWith as bs

/-- Does `needle` occur as a contiguous run inside `hay`?  Models Python's
`needle in hay` on strings (over the character list). -/
def listContainsSeq [BEq α] (needle : List α) : List α → Bool
  | [] => needle.isEmpty
  | a :: t => listStartsWith (a :: t) needle || listContainsSeq needle t

/-- Python's substring test `needle in hay`. -/
def strContains (hay needle : String) : Bool :=
  listContainsSeq needle.data hay.data

/-- Case-insensitive search of the literal label `EAN`, i.e.
`re.compile(r'EAN', re.I).search(s)` succeeds: the ASCII-case-folded text
contains the folded label as a contiguous run. -/
def eanLabelMatches (s : String) : Bool :=
  listContainsSeq "ean".data (s.data.map Char.toLower)

/-! ### `text`: the selector-fallback resolver (bol.py lines 13-19) -/

/-- `text(selectors, soup)`: walk the selector list in order and return the
stripped text of the first selector that matches an element; `""` when none
matches.  (The source returns as soon as an element is *present*, whether
or not its text is empty.) -/
def text (selectors : List String) (soup : Soup) : String :=
  match selectors with
  | [] => ""
  | sel :: rest =>
    match soup.selectOne sel with
    | some element => element.getText
    | none => text rest soup

/-! ### `to_float_price` (bol.py lines 22-38) -/

/-- Value of a list of decimal digit characters read left to right. -/
def digitsToNat (cs : List Char) : ℕ :=
  cs.foldl (fun acc c => acc * 10 + (c.toNat - 48)) 0

/-- Models Python `float()` applied to a string made of digits and dots
(the only shape `to_float_price` ever passes it): accepted iff it has at
most one dot and at least one digit; value is integer part plus fractional
part, the dot always read as the decimal separator. -/
def pyFloat (cs : List Char) : Option ℚ :=
  if cs.all (fun c => c.isDigit || c == '.') && cs.any (fun c => c.isDigit)
      && (cs.filter (fun c => c == '.')).length ≤ 1 then
    let ip := cs.takeWhile (fun c => c ≠ '.')
    let fp := (cs.dropWhile (fun c => c ≠ '.')).drop 1
    some ((digitsToNat ip : ℚ) + (digitsToNat fp : ℚ) / (10 : ℚ) ^ fp.length)
  else
    none

/-- The character class kept by `re.sub(r'[^\d,.]', '', s)`. -/
def keepPriceChar (c : Char) : Bool :=
  c.isDigit || c == ',' || c == '.'

/-- `to_float_price(s)`: `None` on empty input; strip every character that
is not a digit, comma or period; `None` when nothing remains; replace
commas by periods and parse as a float, `None` on parse failure. -/
def to_float_price (s : String) : Option ℚ :=
  if s.isEmpty then none
  else
    let cleaned := s.data.filter keepPriceChar
    if cleaned.isEmpty then none
    else
      let replaced := cleaned.map (fun c => if c == ',' then '.' else c)
      pyFloat replaced

/-! ### `extract_price_parts` (bol.py lines 41-74) -/

/-- The primary integer-part selector. -/
def integer_selector : String := "span.promo-price[data-test=\"price\"]"

/-- The primary fraction-part selector. -/
def fraction_selector : String := "sup.promo-price__fraction[data-test=\"price-fraction\"]"

/-- The fixed fallback selector chain of `extract_price_parts`. -/
def fallback_selectors : List String :=
  ["div[data-test=\"priceBlockPrice\"] [data-test=\"price\"]",
   "meta[property=\"product:price:amount\"]",
   "[data-test=\"price\"]"]

/-- The fallback loop of `extract_price_parts`: first selector whose element
is present and yields non-empty text wins; a `meta` element's text is its
`content` attribute (default `""`); empty text moves on to the next
selector. -/
def priceFallback (soup : Soup) : List String → String × Option ℚ
  | [] => ("", none)
  | sel :: rest =>
    match soup.selectOne sel with
    | none => priceFallback soup rest
    | some element =>
      let price_text :=
        if element.name == "meta" then (element.get "content").getD ""
        else element.getText
      if price_text.isEmpty then priceFallback soup rest
      else (price_text, to_float_price price_text)

/-- `extract_price_parts(soup)`: when both the integer-part and the
fraction-part nodes are present, their texts joined by a comma; otherwise
the fallback chain; `("", None)` when nothing matches. -/
def extract_price_parts (soup : Soup) : String × Option ℚ :=
  match soup.selectOne integer_selector, soup.selectOne fraction_selector with
  | some integer_elem, some fraction_elem =>
    let price_text := integer_elem.getText ++ "," ++ fraction_elem.getText
    (price_text, to_float_price price_text)
  | _, _ => priceFallback soup fallback_selectors

/-! ### `extract_list_price` (bol.py lines 77-93) -/

/-- The list-price selector chain. -/
def list_price_selectors : List String :=
  ["del.buy-block__list-price[data-test=\"list-price\"]",
   "span[data-test=\"list-price\"]",
   "div[data-test=\"buy-block\"] del"]

/-- The selector loop of `extract_list_price`: first present element with
non-empty text wins. -/
def listPriceLoop (soup : Soup) : List String → String × Option ℚ
  | [] => ("", none)
  | sel :: rest =>
    match soup.selectOne sel with
    | none => listPriceLoop soup rest
    | some element =>
      let price_text := element.getText
      if price_text.isEmpty then listPriceLoop soup rest
      else (price_text, to_float_price price_text)

/-- `extract_list_price(soup)`. -/
def extract_list_price (soup : Soup) : String × Option ℚ :=
  listPriceLoop soup list_price_selectors

/-! ### `extract_brand` (bol.py lines 96-112) -/

/-- `extract_brand(soup)`: the brand link's text; else the brand
container's text with a leading `Merk:` label removed and trimmed; else
`""`. -/
def extract_brand (soup : Soup) : String :=
  match soup.selectOne "div[data-test=\"brand\"] a" with
  | some brand_link => brand_link.getText
  | none =>
    match soup.selectOne "div[data-test=\"brand\"]" with
    | some brand_div =>
      let brand_text := brand_div.getText
      if brand_text.startsWith "Merk:" then (brand_text.drop 5).trim
      else brand_text
    | none => ""

/-! ### `extract_ean` (bol.py lines 115-136) -/

/-- Keep only the decimal digits of a string: `re.sub(r'\D', '', s)`. -/
def digitsOnly (s : String) : String :=
  ⟨s.data.filter Char.isDigit⟩

/-- The filter of `soup.find('dt', class_='specs__title',
string=re.compile(r'EAN', re.I))`. -/
def isEanDt (e : Element) : Bool :=
  e.name == "dt" && e.classes.contains "specs__title" &&
    (match e.strAttr with
     | some s => eanLabelMatches s
     | none => false)

/-- The filter of `soup.find('th', string=re.compile(r'EAN', re.I))`. -/
def isEanTh (e : Element) : Bool :=
  e.name == "th" &&
    (match e.strAttr with
     | some s => eanLabelMatches s
     | none => false)

/-- The table fallback of `extract_ean`: a `th` whose string matches the
`EAN` label, read the following `td` sibling, digits only. -/
def eanTableFallback (soup : Soup) : String :=
  match soup.allNodes.find? isEanTh with
  | some ean_th =>
    match ean_th.findNextSibling "td" with
    | some ean_td => digitsOnly ean_td.getText
    | none => ""
  | none => ""

/-- `extract_ean(soup)`: primary strategy is a `dt.specs__title` whose
string matches the `EAN` label followed by a `dd` sibling; when the `dt` is
absent, or present without a `dd` sibling, fall through to the table
strategy. -/
def extract_ean (soup : Soup) : String :=
  match soup.allNodes.find? isEanDt with
  | some ean_dt =>
    match ean_dt.findNextSibling "dd" with
    | some ean_dd => digitsOnly ean_dd.getText
    | none => eanTableFallback soup
  | none => eanTableFallback soup

/-! ### `extract_description` (bol.py lines 139-152) -/

/-- The description selector chain. -/
def description_selectors : List String :=
  ["div[data-test=\"description\"].product-description",
   "[data-test=\"description\"]",
   "section#productDescription"]

/-- `extract_description(soup)`: text of the first present element of the
chain (the source takes the first *present* element, like `text`). -/
def extract_description (soup : Soup) : String :=
  text description_selectors soup

/-! ### `extract_gallery_images` (bol.py lines 155-176) -/

/-- Python `a or b` over optional attribute values: an absent or empty
first operand falls through to the second. -/
def pyOr (a b : Option String) : Option String :=
  match a with
  | some s => if s.isEmpty then b else some s
  | none => b

/-- `src = img.get('src') or img.get('data-src')` followed by the
`if src and 'bol.com' in src and 'media' in src` filter. -/
def qualifyingSrc (e : Element) : Option String :=
  match pyOr (e.get "src") (e.get "data-src") with
  | some src =>
    if !src.isEmpty && strContains src "bol.com" && strContains src "media" then
      some src
    else none
  | none => none

/-- The raw image list before post-processing: the filmstrip scan, and when
it collected nothing, the whole-document `find_all('img')` scan, both under
the same qualifying filter. -/
def rawGalleryImages (soup : Soup) : List String :=
  let images := (soup.select ".filmstrip-viewport img").filterMap qualifyingSrc
  if images.isEmpty then
    (soup.allNodes.filter (fun e => e.name == "img")).filterMap qualifyingSrc
  else images

/-- `list(dict.fromkeys(l))`: deduplicate keeping the first occurrence of
each entry, preserving order. -/
def pyDedup (seen : List String) : List String → List String
  | [] => []
  | x :: xs =>
    if x ∈ seen then pyDedup seen xs
    else x :: pyDedup (x :: seen) xs

/-- `extract_gallery_images(soup)`: collect, deduplicate first-seen, take
the first 20. -/
def extract_gallery_images (soup : Soup) : List String :=
  (pyDedup [] (rawGalleryImages soup)).take 20

/-! ### URL validation and orchestration (bol.py lines 179-248)

`urlparse` is the Python standard library; its netloc extraction is
modelled: a leading `scheme:` (first character alphabetic, all scheme
characters) is removed, and the netloc is the run after a leading `//` up
to the first `/`, `?` or `#`, empty when the remainder does not start with
`//`. -/

/-- Characters allowed in a URL scheme. -/
def schemeChar (c : Char) : Bool :=
  c.isAlpha || c.isDigit || c == '+' || c == '-' || c == '.'

/-- Strip a valid `scheme:` from the front, when present. -/
def splitSchemeRest (cs : List Char) : List Char :=
  match cs.findIdx? (fun c => c = ':') with
  | some i =>
    if 0 < i && (cs.take i).all schemeChar &&
        (match cs with | c :: _ => c.isAlpha | [] => false) then
      cs.drop (i + 1)
    else cs
  | none => cs

/-- `urlparse(url).netloc`. -/
def urlparse_netloc (url : String) : String :=
  match splitSchemeRest url.data with
  | '/' :: '/' :: t => ⟨t.takeWhile (fun c => c ≠ '/' && c ≠ '?' && c ≠ '#')⟩
  | _ => ""

/-- The output record of the extraction engine: the dict returned by
`scrape_bol_product`.  `all_images` is the pipe-joined string the source
builds on line 231. -/
structure ProductRecord where
  source_url : String
  title : String
  brand : String
  price_text : String
  price_value : Option ℚ
  list_price_text : String
  list_price_value : Option ℚ
  ean : String
  description : String
  main_image : String
  all_images : String
deriving DecidableEq, Repr

/-- The title selector chain of `scrape_bol_product`. -/
def title_selectors : List String :=
  ["span[data-test=\"title\"]", "h1[data-test=\"product-title\"]", "h1",
   "meta[property=\"og:title\"]"]

/-- The title extraction of `scrape_bol_product`: the `text` chain, and
when it produced nothing, the `og:title` meta tag's `content` attribute. -/
def extractTitle (soup : Soup) : String :=
  let title := text title_selectors soup
  if title.isEmpty then
    match soup.selectOne "meta[property=\"og:title\"]" with
    | some meta_title => (meta_title.get "content").getD ""
    | none => title
  else title

/-- The record `scrape_bol_product` assembles from a rendered document
(bol.py lines 208-245). -/
def buildRecord (url : String) (soup : Soup) : ProductRecord :=
  let priceParts := extract_price_parts soup
  let listParts := extract_list_price soup
  let gallery_images := extract_gallery_images soup
  { source_url := url
    title := extractTitle soup
    brand := extract_brand soup
    price_text := priceParts.1
    price_value := priceParts.2
    list_price_text := listParts.1
    list_price_value := listParts.2
    ean := extract_ean soup
    description := extract_description soup
    main_image := match gallery_images with | [] => "" | h :: _ => h
    all_images := String.intercalate "|" gallery_images }

/-- `scrape_bol_product(url)`: validate that the parsed host is non-empty
and contains `bol.com`, raising `ValueError("URL moet van bol.com zijn")`
otherwise before the browser session is even opened; then render (the
renderer is the external playwright collaborator, passed as a function)
and extract.  The `Except` error carries the ValueError message. -/
def scrape_bol_product (url : String) (render : String → Soup) :
    Except String ProductRecord :=
  let netloc := urlparse_netloc url
  if netloc.isEmpty || !strContains netloc "bol.com" then
    Except.error "URL moet van bol.com zijn"
  else
    Except.ok (buildRecord url (render url))

/-! ### Concrete example documents used by the theorems -/

/-- A document on which every query fails: no selector matches and the node
list is empty. -/
def emptySoup : Soup :=
  { selectOne := fun _ => none, select := fun _ => [], allNodes := [] }

/-- A plain element with the given tag name and stripped text. -/
def textElem (name getText : String) : Element :=
  { name := name, classes := [], strAttr := none, getText := getText,
    attrs := [], siblingsAfter := [] }

/-- Document where the first selector of a two-rule chain matches an
element with empty text while the second matches an element with text
`x`. -/
def soupFirstEmpty : Soup :=
  { selectOne := fun sel =>
      if sel == "a" then some (textElem "div" "")
      else if sel == "b" then some (textElem "div" "x")
      else none,
    select := fun _ => [], allNodes := [] }

/-- Document exposing an integer price node `49` and a fraction node `99`
and nothing else. -/
def soup4999 : Soup :=
  { selectOne := fun sel =>
      if sel == integer_selector then some (textElem "span" "49")
      else if sel == fraction_selector then some (textElem "sup" "99")
      else none,
    select := fun _ => [], allNodes := [] }

/-- Document whose only price information is the machine-readable meta tag
`product:price:amount` with content `49.99`. -/
def soupMetaPrice : Soup :=
  { selectOne := fun sel =>
      if sel == "meta[property=\"product:price:amount\"]" then
        some { name := "meta", classes := [], strAttr := none, getText := "",
               attrs := [("content", "49.99")], siblingsAfter := [] }
      else none,
    select := fun _ => [], allNodes := [] }

/-- An image element carrying the given `src` attribute. -/
def imgElem (src : String) : Element :=
  { name := "img", classes := [], strAttr := none, getText := "",
    attrs := [("src", src)], siblingsAfter := [] }

/-- The `i`-th qualifying gallery URL (contains both `bol.com` and
`media`). -/
def galleryUrl (i : ℕ) : String :=
  "https://media.bol.com/i" ++ toString i ++ ".jpg"

/-- Document whose filmstrip holds 25 distinct qualifying image URLs. -/
def soup25Primary : Soup :=
  { selectOne := fun _ => none,
    select := fun sel =>
      if sel == ".filmstrip-viewport img" then
        (List.range 25).map (fun i => imgElem (galleryUrl i))
      else [],
    allNodes := [] }

/-- Document with an empty filmstrip whose whole-document scan holds 25
distinct qualifying image URLs. -/
def soup25Fallback : Soup :=
  { selectOne := fun _ => none, select := fun _ => [],
    allNodes := (List.range 25).map (fun i => imgElem (galleryUrl i)) }

/-- Document whose filmstrip repeats the first image URL around a second
one. -/
def soupDupImages : Soup :=
  { selectOne := fun _ => none,
    select := fun sel =>
      if sel == ".filmstrip-viewport img" then
        [imgElem (galleryUrl 0), imgElem (galleryUrl 1), imgElem (galleryUrl 0)]
      else [],
    allNodes := [] }

/-- Document whose filmstrip holds exactly two distinct qualifying image
URLs. -/
def soupTwoImages : Soup :=
  { selectOne := fun _ => none,
    select := fun sel =>
      if sel == ".filmstrip-viewport img" then
        [imgElem (galleryUrl 0), imgElem (galleryUrl 1)]
      else [],
    allNodes := [] }

/-- A `dt.specs__title` node whose string matches the `EAN` label,
followed by a `dd` sibling with the given text. -/
def eanDtWithDd (ddText : String) : Element :=
  { name := "dt", classes := ["specs__title"], strAttr := some "EAN",
    getText := "EAN", attrs := [],
    siblingsAfter := [{ name := "dd", getText := ddText }] }

/-- Document whose specification list carries the identifier text
`EAN: 8 711 5 99`. -/
def soupEanExample : Soup :=
  { selectOne := fun _ => none, select := fun _ => [],
    allNodes := [eanDtWithDd "EAN: 8 711 5 99"] }

/-- A `dt.specs__title` node matching the `EAN` label with no sibling at
all — in particular no `dd` value node. -/
def dtNoDdElem : Element :=
  { name := "dt", classes := ["specs__title"], strAttr := some "EAN",
    getText := "EAN", attrs := [], siblingsAfter := [] }

/-- A table header cell matching the `EAN` label followed by a data cell
holding `12345`. -/
def thWithTd : Element :=
  { name := "th", classes := [], strAttr := some "EAN", getText := "EAN",
    attrs := [], siblingsAfter := [{ name := "td", getText := "12345" }] }

/-- Document with a matching `dt` that has no `dd` sibling, and a table row
`th EAN / td 12345`: the table strategy must still fire. -/
def soupDtNoDd : Soup :=
  { selectOne := fun _ => none, select := fun _ => [],
    allNodes := [dtNoDdElem, thWithTd] }

/-! ### General lemmas about the embedded definitions -/

theorem listStartsWith_append [BEq α] [LawfulBEq α] (m b : List α) :
    listStartsWith (m ++ b) m = true := by
  induction m with
  | nil => simp [listStartsWith]
  | cons c t ih => simp [listStartsWith, ih]

theorem listContainsSeq_nil [BEq α] (hay : List α) :
    listContainsSeq ([] : List α) hay = true := by
  cases hay <;> simp [listContainsSeq, listStartsWith]

theorem listContainsSeq_append_mid [BEq α] [LawfulBEq α] (a m b : List α) :
    listContainsSeq m (a ++ m ++ b) = true := by
  induction a with
  | nil =>
    cases m with
    | nil => simpa using listContainsSeq_nil b
    | cons c t =>
      simp only [List.nil_append, List.cons_append, listContainsSeq,
        Bool.or_eq_true]
      left
      simpa using listStartsWith_append (c :: t) b
  | cons x xs ih =>
    simp only [List.cons_append, listContainsSeq, Bool.or_eq_true]
    right
    simpa [List.append_assoc] using ih

theorem isDigit_ne_dot {c : Char} (h : c.isDigit = true) : c ≠ '.' := by
  intro hc
  rw [hc] at h
  exact absurd h (by decide)

theorem isDigit_ne_comma {c : Char} (h : c.isDigit = true) : c ≠ ',' := by
  intro hc
  rw [hc] at h
  exact absurd h (by decide)

theorem filter_dot_of_digits {cs : List Char} (h : cs.all Char.isDigit = true) :
    cs.filter (fun c => c == '.') = [] := by
  rw [List.filter_eq_nil_iff]
  intro c hc
  simpa using isDigit_ne_dot (List.all_eq_true.mp h c hc)

theorem takeWhile_digits {ds : List Char} (h : ds.all Char.isDigit = true) :
    ds.takeWhile (fun c => c ≠ '.') = ds := by
  induction ds with
  | nil => rfl
  | cons d t ih =>
    rw [List.all_cons, Bool.and_eq_true] at h
    rw [List.takeWhile_cons, if_pos (by simpa using isDigit_ne_dot h.1), ih h.2]

theorem dropWhile_digits {ds : List Char} (h : ds.all Char.isDigit = true) :
    ds.dropWhile (fun c => c ≠ '.') = [] := by
  induction ds with
  | nil => rfl
  | cons d t ih =>
    rw [List.all_cons, Bool.and_eq_true] at h
    rw [List.dropWhile_cons, if_pos (by simpa using isDigit_ne_dot h.1), ih h.2]

theorem takeWhile_digits_dot {ds fs : List Char} (h : ds.all Char.isDigit = true) :
    (ds ++ '.' :: fs).takeWhile (fun c => c ≠ '.') = ds := by
  induction ds with
  | nil =>
    rw [List.nil_append, List.takeWhile_cons, if_neg (by simp)]
  | cons d t ih =>
    rw [List.all_cons, Bool.and_eq_true] at h
    rw [List.cons_append, List.takeWhile_cons,
      if_pos (by simpa using isDigit_ne_dot h.1), ih h.2]

theorem dropWhile_digits_dot {ds fs : List Char} (h : ds.all Char.isDigit = true) :
    (ds ++ '.' :: fs).dropWhile (fun c => c ≠ '.') = '.' :: fs := by
  induction ds with
  | nil =>
    rw [List.nil_append, List.dropWhile_cons, if_neg (by simp)]
  | cons d t ih =>
    rw [List.all_cons, Bool.and_eq_true] at h
    rw [List.cons_append, List.dropWhile_cons,
      if_pos (by simpa using isDigit_ne_dot h.1), ih h.2]

theorem map_commaToDot_digits {cs : List Char} (h : cs.all Char.isDigit = true) :
    cs.map (fun c => if c == ',' then '.' else c) = cs := by
  induction cs with
  | nil => rfl
  | cons c t ih =>
    rw [List.all_cons, Bool.and_eq_true] at h
    rw [List.map_cons, ih h.2, if_neg (by simpa using isDigit_ne_comma h.1)]

theorem filter_keep_of_digits {cs : List Char} (h : cs.all Char.isDigit = true) :
    cs.filter keepPriceChar = cs := by
  rw [List.filter_eq_self]
  intro c hc
  simp [keepPriceChar, List.all_eq_true.mp h c hc]

/-- `pyFloat` on a pure digit string: the integer value. -/
theorem pyFloat_digits {ds : List Char} (h : ds.all Char.isDigit = true)
    (hne : ds ≠ []) : pyFloat ds = some (digitsToNat ds) := by
  have hall : ds.all (fun c => c.isDigit || c == '.') = true := by
    rw [List.all_eq_true] at h ⊢
    intro c hc
    simp [h c hc]
  have hany : ds.any (fun c => c.isDigit) = true := by
    rcases List.exists_mem_of_ne_nil ds hne with ⟨c, hc⟩
    rw [List.any_eq_true]
    exact ⟨c, hc, List.all_eq_true.mp h c hc⟩
  rw [pyFloat, if_pos]
  · rw [takeWhile_digits h, dropWhile_digits h]
    norm_num [digitsToNat]
  · simp [hall, hany, filter_dot_of_digits h]

/-- `pyFloat` on a digits-dot-digits string: the dot is the decimal
separator. -/
theorem pyFloat_digits_dot {ds fs : List Char} (hd : ds.all Char.isDigit = true)
    (hf : fs.all Char.isDigit = true) (hne : ds ≠ [] ∨ fs ≠ []) :
    pyFloat (ds ++ '.' :: fs) =
      some ((digitsToNat ds : ℚ) + (digitsToNat fs : ℚ) / (10 : ℚ) ^ fs.length) := by
  have hall : (ds ++ '.' :: fs).all (fun c => c.isDigit || c == '.') = true := by
    rw [List.all_eq_true]
    intro c hc
    rcases List.mem_append.mp hc with hc | hc
    · simp [List.all_eq_true.mp hd c hc]
    · rcases List.mem_cons.mp hc with rfl | hc
      · simp
      · simp [List.all_eq_true.mp hf c hc]
  have hany : (ds ++ '.' :: fs).any (fun c => c.isDigit) = true := by
    rw [List.any_eq_true]
    rcases hne with hne | hne
    · rcases List.exists_mem_of_ne_nil ds hne with ⟨c, hc⟩
      exact ⟨c, List.mem_append_left _ hc, List.all_eq_true.mp hd c hc⟩
    · rcases List.exists_mem_of_ne_nil fs hne with ⟨c, hc⟩
      exact ⟨c, List.mem_append_right _ (List.mem_cons_of_mem _ hc),
        List.all_eq_true.mp hf c hc⟩
  rw [pyFloat, if_pos]
  · rw [takeWhile_digits_dot hd, dropWhile_digits_dot hd]
    simp
  · simp [hall, hany, List.filter_append, filter_dot_of_digits hd,
      filter_dot_of_digits hf]

/-- When the input is non-empty and cleaning leaves something,
`to_float_price` is the float parse of the comma-to-dot translation of the
cleaned string. -/
theorem to_float_price_eq_pyFloat {s : String} (h1 : s.isEmpty = false)
    (h2 : s.data.filter keepPriceChar ≠ []) :
    to_float_price s =
      pyFloat ((s.data.filter keepPriceChar).map
        (fun c => if c == ',' then '.' else c)) := by
  have hClean : (s.data.filter keepPriceChar).isEmpty = false := by
    cases hfl : s.data.filter keepPriceChar with
    | nil => exact absurd hfl h2
    | cons a t => rfl
  simp only [to_float_price, h1, hClean, Bool.false_eq_true, if_false]

/-- A digit list followed by a comma and a digit list is never the empty
string. -/
theorem mk_append_comma_isEmpty_false (ds fs : List Char) :
    (⟨ds ++ ',' :: fs⟩ : String).isEmpty = false := by
  rw [Bool.eq_false_iff]
  intro hc
  rw [String.isEmpty_iff] at hc
  have hdata : ds ++ ',' :: fs = [] := congrArg String.data hc
  simp at hdata

/-- As above with a period separator. -/
theorem mk_append_dot_isEmpty_false (ds fs : List Char) :
    (⟨ds ++ '.' :: fs⟩ : String).isEmpty = false := by
  rw [Bool.eq_false_iff]
  intro hc
  rw [String.isEmpty_iff] at hc
  have hdata : ds ++ '.' :: fs = [] := congrArg String.data hc
  simp at hdata

/-- `to_float_price` on a locale price string `digits ++ "," ++ digits`:
the comma is read as the decimal separator. -/
theorem to_float_price_comma {ds fs : List Char} (hd : ds.all Char.isDigit = true)
    (hf : fs.all Char.isDigit = true) (hne : ds ≠ []) :
    to_float_price ⟨ds ++ ',' :: fs⟩ =
      some ((digitsToNat ds : ℚ) + (digitsToNat fs : ℚ) / (10 : ℚ) ^ fs.length) := by
  have h2 : (⟨ds ++ ',' :: fs⟩ : String).data.filter keepPriceChar =
      ds ++ ',' :: fs := by
    show (ds ++ ',' :: fs).filter keepPriceChar = _
    rw [List.filter_append, filter_keep_of_digits hd, List.filter_cons]
    simp [show keepPriceChar ',' = true from rfl, filter_keep_of_digits hf]
  rw [to_float_price_eq_pyFloat (mk_append_comma_isEmpty_false ds fs)
    (by rw [h2]; simp)]
  rw [h2, List.map_append, map_commaToDot_digits hd, List.map_cons,
    map_commaToDot_digits hf]
  exact pyFloat_digits_dot hd hf (Or.inl hne)

/-- `to_float_price` on a price string `digits ++ "." ++ digits`: the
period is read as the decimal separator. -/
theorem to_float_price_dot {ds fs : List Char} (hd : ds.all Char.isDigit = true)
    (hf : fs.all Char.isDigit = true) (hne : ds ≠ []) :
    to_float_price ⟨ds ++ '.' :: fs⟩ =
      some ((digitsToNat ds : ℚ) + (digitsToNat fs : ℚ) / (10 : ℚ) ^ fs.length) := by
  have h2 : (⟨ds ++ '.' :: fs⟩ : String).data.filter keepPriceChar =
      ds ++ '.' :: fs := by
    show (ds ++ '.' :: fs).filter keepPriceChar = _
    rw [List.filter_append, filter_keep_of_digits hd, List.filter_cons]
    simp [show keepPriceChar '.' = true from rfl, filter_keep_of_digits hf]
  rw [to_float_price_eq_pyFloat (mk_append_dot_isEmpty_false ds fs)
    (by rw [h2]; simp)]
  rw [h2, List.map_append, map_commaToDot_digits hd, List.map_cons,
    map_commaToDot_digits hf]
  exact pyFloat_digits_dot hd hf (Or.inl hne)

/-- `to_float_price("49,99") = 49.99`. -/
theorem to_float_price_49_99 : to_float_price "49,99" = some (4999 / 100 : ℚ) := by
  have h : ("49,99" : String) = ⟨['4', '9'] ++ ',' :: ['9', '9']⟩ := by decide
  rw [h, to_float_price_comma (by decide) (by decide) (by decide)]
  norm_num [show digitsToNat ['4', '9'] = 49 from rfl,
    show digitsToNat ['9', '9'] = 99 from rfl,
    show (['9', '9'] : List Char).length = 2 from rfl]

/-- `to_float_price("49.99") = 49.99`. -/
theorem to_float_price_49dot99 : to_float_price "49.99" = some (4999 / 100 : ℚ) := by
  have h : ("49.99" : String) = ⟨['4', '9'] ++ '.' :: ['9', '9']⟩ := by decide
  rw [h, to_float_price_dot (by decide) (by decide) (by decide)]
  norm_num [show digitsToNat ['4', '9'] = 49 from rfl,
    show digitsToNat ['9', '9'] = 99 from rfl,
    show (['9', '9'] : List Char).length = 2 from rfl]

/-- `to_float_price("1.299") = 1.299` — one and a fraction, not 1299. -/
theorem to_float_price_1_299 : to_float_price "1.299" = some (1299 / 1000 : ℚ) := by
  have h : ("1.299" : String) = ⟨['1'] ++ '.' :: ['2', '9', '9']⟩ := by decide
  rw [h, to_float_price_dot (by decide) (by decide) (by decide)]
  norm_num [show digitsToNat ['1'] = 1 from rfl,
    show digitsToNat ['2', '9', '9'] = 299 from rfl,
    show (['2', '9', '9'] : List Char).length = 3 from rfl]

/-- Every entry of `pyDedup seen l` avoids the `seen` accumulator. -/
theorem pyDedup_not_mem_seen :
    ∀ (l seen : List String) (x : String), x ∈ pyDedup seen l → x ∉ seen := by
  intro l
  induction l with
  | nil => intro seen x hx; simp [pyDedup] at hx
  | cons a t ih =>
    intro seen x hx
    by_cases ha : a ∈ seen
    · rw [pyDedup, if_pos ha] at hx
      exact ih seen x hx
    · rw [pyDedup, if_neg ha] at hx
      rcases List.mem_cons.mp hx with rfl | hx'
      · exact ha
      · intro hxs
        exact ih (a :: seen) x hx' (List.mem_cons_of_mem a hxs)

/-- `pyDedup` produces a list without duplicates. -/
theorem pyDedup_nodup : ∀ (l seen : List String), (pyDedup seen l).Nodup := by
  intro l
  induction l with
  | nil => intro seen; simp [pyDedup]
  | cons a t ih =>
    intro seen
    by_cases ha : a ∈ seen
    · rw [pyDedup, if_pos ha]
      exact ih seen
    · rw [pyDedup, if_neg ha]
      refine List.nodup_cons.mpr ⟨fun hmem => ?_, ih (a :: seen)⟩
      exact pyDedup_not_mem_seen t (a :: seen) a hmem (List.mem_cons_self a seen)

/-- The gallery is duplicate-free. -/
theorem extract_gallery_images_nodup (soup : Soup) :
    (extract_gallery_images soup).Nodup :=
  (pyDedup_nodup (rawGalleryImages soup) []).sublist (List.take_sublist 20 _)

/-- The gallery never exceeds 20 entries. -/
theorem extract_gallery_images_length_le (soup : Soup) :
    (extract_gallery_images soup).length ≤ 20 :=
  List.length_take_le 20 _

/-- `digitsOnly` yields only decimal digits. -/
theorem digitsOnly_all_digit (s : String) :
    (digitsOnly s).data.all Char.isDigit = true := by
  rw [List.all_eq_true]
  intro c hc
  exact (List.mem_filter.mp hc).2

/-- The table fallback of `extract_ean` yields only decimal digits. -/
theorem eanTableFallback_all_digit (soup : Soup) :
    (eanTableFallback soup).data.all Char.isDigit = true := by
  rw [eanTableFallback]
  cases soup.allNodes.find? isEanTh with
  | none => rfl
  | some th =>
    cases h : th.findNextSibling "td" with
    | none => simp [h]
    | some td => simp [h, digitsOnly_all_digit td.getText]

/-! ### Claim theorems -/

/-- C1 is refuted at a concrete document: the first rule matches an element
whose text is empty, the second rule's element has text `x`, so the first
rule matching a present non-empty result is the second — yet `text`
returns `""`, because the source returns on the first *present* element
regardless of whether its text is empty. -/
theorem text_first_present_counterexample :
    soupFirstEmpty.selectOne "a" = some (textElem "div" "") ∧
    (textElem "div" "").getText = "" ∧
    soupFirstEmpty.selectOne "b" = some (textElem "div" "x") ∧
    (textElem "div" "x").getText = "x" ∧
    text ["a", "b"] soupFirstEmpty = "" ∧
    text ["a", "b"] soupFirstEmpty ≠ "x" := by
  refine ⟨by decide, by decide, by decide, by decide, by decide, by decide⟩

/-- C1 (amended): `text` returns the stripped text of the first rule whose
element is *present* — even when that text is empty; later rules are never
consulted once a rule matches an element; a rule matching no element passes
control to the rest of the chain; and when no rule matches any element the
result is the empty string (and, the embedding being total, no error is
possible). -/
theorem text_first_present :
    (∀ (soup : Soup) (sel : String) (rest : List String) (e : Element),
      soup.selectOne sel = some e → text (sel :: rest) soup = e.getText) ∧
    (∀ (soup : Soup) (sel : String) (rest : List String),
      soup.selectOne sel = none → text (sel :: rest) soup = text rest soup) ∧
    (∀ (soup : Soup) (selectors : List String),
      (∀ sel ∈ selectors, soup.selectOne sel = none) →
      text selectors soup = "") := by
  refine ⟨?_, ?_, ?_⟩
  · intro soup sel rest e h
    simp [text, h]
  · intro soup sel rest h
    simp [text, h]
  · intro soup selectors h
    induction selectors with
    | nil => rfl
    | cons s t ih =>
      have hs := h s (List.mem_cons_self s t)
      simp only [text, hs]
      exact ih fun sel hsel => h sel (List.mem_cons_of_mem s hsel)

/-- C1 amended, witnessed at a concrete document: the first rule of the
chain matches an element, and `text` returns that element's (empty) text
without consulting the second rule. -/
theorem text_first_present_witness :
    soupFirstEmpty.selectOne "a" = some (textElem "div" "") ∧
    text ["a", "b"] soupFirstEmpty = (textElem "div" "").getText :=
  ⟨by decide,
   text_first_present.1 soupFirstEmpty "a" ["b"] (textElem "div" "") (by decide)⟩

/-- C2: `to_float_price` returns `None` on the empty string and on strings
cleaning to nothing, parses `"49,99"` to `49.99`, returns `None` on
`"abc"`, and in general parses the cleaned, comma-to-dot-translated string,
`None` on parse failure; on every locale string `digits ++ "," ++ digits`
it returns the expected rational.  The embedding is a total function, so it
never raises. -/
theorem to_float_price_spec :
    to_float_price "" = none ∧
    to_float_price "abc" = none ∧
    to_float_price "49,99" = some (4999 / 100 : ℚ) ∧
    (∀ s : String, s.data.filter keepPriceChar = [] → to_float_price s = none) ∧
    (∀ s : String, s.isEmpty = false → s.data.filter keepPriceChar ≠ [] →
      to_float_price s =
        pyFloat ((s.data.filter keepPriceChar).map
          (fun c => if c == ',' then '.' else c))) ∧
    (∀ ds fs : List Char, ds.all Char.isDigit = true → fs.all Char.isDigit = true →
      ds ≠ [] →
      to_float_price ⟨ds ++ ',' :: fs⟩ =
        some ((digitsToNat ds : ℚ) + (digitsToNat fs : ℚ) / (10 : ℚ) ^ fs.length)) := by
  refine ⟨by decide, by decide, to_float_price_49_99, ?_, ?_, ?_⟩
  · intro s h
    by_cases hs : s.isEmpty = true
    · simp [to_float_price, hs]
    · have hs' : s.isEmpty = false := by
        cases hval : s.isEmpty
        · rfl
        · exact absurd hval hs
      simp [to_float_price, hs', h]
  · intro s h1 h2
    exact to_float_price_eq_pyFloat h1 h2
  · intro ds fs hd hf hne
    exact to_float_price_comma hd hf hne

/-- C2, witnessed: the locale-parsing clause applied at `"49"` and `"99"`,
i.e. the digit lists of `"49,99"`. -/
theorem to_float_price_spec_witness :
    (['4', '9'] : List Char).all Char.isDigit = true ∧
    (['9', '9'] : List Char).all Char.isDigit = true ∧
    (['4', '9'] : List Char) ≠ [] ∧
    to_float_price ⟨['4', '9'] ++ ',' :: ['9', '9']⟩ =
      some ((digitsToNat ['4', '9'] : ℚ) + (digitsToNat ['9', '9'] : ℚ) /
        (10 : ℚ) ^ (['9', '9'] : List Char).length) :=
  ⟨by decide, by decide, by decide,
   to_float_price_spec.2.2.2.2.2 ['4', '9'] ['9', '9'] (by decide) (by decide)
     (by decide)⟩

/-- C3 is refuted at a concrete document: for a document whose gallery is
the two-URL sequence, the record's `all_images` field produced by the
engine (`scrape_bol_product` / `buildRecord`) is already the pipe-joined
*string* of the sequence — the join happens on line 231 of the engine, not
in the persistence collaborator; the joined string is not an entry of the
gallery sequence. -/
theorem all_images_joined_counterexample :
    extract_gallery_images soupTwoImages = [galleryUrl 0, galleryUrl 1] ∧
    (buildRecord "https://www.bol.com/p" soupTwoImages).all_images =
      "https://media.bol.com/i0.jpg|https://media.bol.com/i1.jpg" ∧
    (scrape_bol_product "https://www.bol.com/p" (fun _ => soupTwoImages)).map
        ProductRecord.all_images =
      Except.ok "https://media.bol.com/i0.jpg|https://media.bol.com/i1.jpg" ∧
    "https://media.bol.com/i0.jpg|https://media.bol.com/i1.jpg" ∉
      extract_gallery_images soupTwoImages := by
  refine ⟨by decide, by decide, by rfl, by decide⟩

/-- C3 (amended): the engine computes the gallery as an ordered sequence
(`extract_gallery_images`), but serializes it itself: the `all_images`
field of every record returned by the engine is the pipe-joined string of
that sequence. -/
theorem all_images_is_engine_join :
    ∀ (url : String) (soup : Soup),
      (buildRecord url soup).all_images =
        String.intercalate "|" (extract_gallery_images soup) := by
  intro url soup
  rfl

/-- C4: the gallery sequence is deduplicated preserving first-seen order
(each URL occurs exactly once, shown by `Nodup` plus a concrete
duplicate-bearing document) and capped at 20; the post-processing is one
and the same dedup-then-truncate applied to the raw scan whichever rule
collected it — witnessed by a 25-URL filmstrip document and a 25-URL
whole-document-fallback document both yielding exactly 20; and
`main_image` is the head of the sequence, `""` when it is empty. -/
theorem gallery_invariants :
    (∀ soup : Soup,
      extract_gallery_images soup = (pyDedup [] (rawGalleryImages soup)).take 20) ∧
    (∀ soup : Soup, (extract_gallery_images soup).Nodup) ∧
    (∀ soup : Soup, (extract_gallery_images soup).length ≤ 20) ∧
    (extract_gallery_images soup25Primary).length = 20 ∧
    (extract_gallery_images soup25Fallback).length = 20 ∧
    extract_gallery_images soupDupImages = [galleryUrl 0, galleryUrl 1] ∧
    (∀ (url : String) (soup : Soup),
      (buildRecord url soup).main_image = (extract_gallery_images soup).headD "") := by
  refine ⟨fun soup => rfl, extract_gallery_images_nodup,
    extract_gallery_images_length_le, by decide, by decide, by decide, ?_⟩
  intro url soup
  cases h : extract_gallery_images soup with
  | nil => simp [buildRecord, h]
  | cons a t => simp [buildRecord, h]

/-- C5: whenever the parsed host of the URL does not contain `bol.com`,
`scrape_bol_product` fails with the invalid-input error — independently of
the renderer, which is never invoked, and with no record in the result;
`"https://example.com/product"` is such a URL. -/
theorem invalid_url_rejected :
    (∀ (url : String) (render : String → Soup),
      strContains (urlparse_netloc url) "bol.com" = false →
      scrape_bol_product url render = Except.error "URL moet van bol.com zijn") ∧
    urlparse_netloc "https://example.com/product" = "example.com" ∧
    strContains "example.com" "bol.com" = false := by
  refine ⟨?_, by decide, by decide⟩
  intro url render h
  simp [scrape_bol_product, h]

/-- C5, witnessed at `"https://example.com/product"` with an arbitrary
renderer. -/
theorem invalid_url_rejected_witness :
    strContains (urlparse_netloc "https://example.com/product") "bol.com" = false ∧
    scrape_bol_product "https://example.com/product" (fun _ => emptySoup) =
      Except.error "URL moet van bol.com zijn" :=
  ⟨by decide,
   invalid_url_rejected.1 "https://example.com/product" (fun _ => emptySoup)
     (by decide)⟩

/-- C6: with both the integer-part and fraction-part nodes present,
`extract_price_parts` returns their texts joined by a comma together with
the parsed value; with either half missing it runs the fallback chain in
its fixed order (a direct price container, then the machine-readable meta
tag — read from its `content` attribute — then a generic price container);
with nothing matching it returns `("", None)`.  Concretely, integer `49`
with fraction `99` yields `("49,99", 49.99)`, and a meta-only document
yields its content-attribute amount. -/
theorem extract_price_parts_spec :
    (∀ (soup : Soup) (i f : Element),
      soup.selectOne integer_selector = some i →
      soup.selectOne fraction_selector = some f →
      extract_price_parts soup =
        (i.getText ++ "," ++ f.getText,
         to_float_price (i.getText ++ "," ++ f.getText))) ∧
    (∀ soup : Soup,
      soup.selectOne integer_selector = none ∨
        soup.selectOne fraction_selector = none →
      extract_price_parts soup = priceFallback soup fallback_selectors) ∧
    fallback_selectors =
      ["div[data-test=\"priceBlockPrice\"] [data-test=\"price\"]",
       "meta[property=\"product:price:amount\"]",
       "[data-test=\"price\"]"] ∧
    (∀ soup : Soup, (∀ sel : String, soup.selectOne sel = none) →
      extract_price_parts soup = ("", none)) ∧
    extract_price_parts soup4999 = ("49,99", some (4999 / 100 : ℚ)) ∧
    extract_price_parts soupMetaPrice = ("49.99", some (4999 / 100 : ℚ)) := by
  refine ⟨?_, ?_, rfl, ?_, ?_, ?_⟩
  · intro soup i f hi hf
    simp [extract_price_parts, hi, hf]
  · intro soup h
    rcases h with h | h
    · cases hf : soup.selectOne fraction_selector <;>
        simp [extract_price_parts, h, hf]
    · cases hi : soup.selectOne integer_selector <;>
        simp [extract_price_parts, h, hi]
  · intro soup h
    simp [extract_price_parts, priceFallback, fallback_selectors, h]
  · have h1 : extract_price_parts soup4999 = ("49,99", to_float_price "49,99") := rfl
    rw [h1, to_float_price_49_99]
  · have h1 : extract_price_parts soupMetaPrice =
        ("49.99", to_float_price "49.99") := rfl
    rw [h1, to_float_price_49dot99]

/-- C6, witnessed: the primary integer/fraction rule applied at the
concrete `49`/`99` document. -/
theorem extract_price_parts_spec_witness :
    soup4999.selectOne integer_selector = some (textElem "span" "49") ∧
    soup4999.selectOne fraction_selector = some (textElem "sup" "99") ∧
    extract_price_parts soup4999 =
      ((textElem "span" "49").getText ++ "," ++ (textElem "sup" "99").getText,
       to_float_price
         ((textElem "span" "49").getText ++ "," ++ (textElem "sup" "99").getText)) :=
  ⟨by decide, by decide,
   extract_price_parts_spec.1 soup4999 (textElem "span" "49") (textElem "sup" "99")
     (by decide) (by decide)⟩

/-- C7 is refuted on its concrete example: stripping every non-digit from
the identifier text `"EAN: 8 711 5 99"` leaves the seven digits
`"8711599"`, not the six-digit `"871159"` the claim states — the extractor
does return digits only, but the claim's expected value drops the final
`9`. -/
theorem ean_example_counterexample :
    digitsOnly "EAN: 8 711 5 99" = "8711599" ∧
    extract_ean soupEanExample = "8711599" ∧
    "8711599" ≠ "871159" := by
  refine ⟨by decide, by decide, by decide⟩

/-- C7 (amended): `extract_ean` returns a string of decimal digits only,
whichever strategy fires: every non-digit is stripped from the retrieved
text — identifier text `"EAN: 8 711 5 99"` yields `"8711599"` — the label
match is case-insensitive and tolerates the label embedded in longer text,
and when neither structure matches the result is the empty string. -/
theorem extract_ean_digits_only :
    (∀ soup : Soup, (extract_ean soup).data.all Char.isDigit = true) ∧
    extract_ean soupEanExample = "8711599" ∧
    (∀ a b : String, eanLabelMatches (a ++ "EAN" ++ b) = true) ∧
    (∀ a b : String, eanLabelMatches (a ++ "ean" ++ b) = true) ∧
    (∀ soup : Soup, soup.allNodes.find? isEanDt = none →
      soup.allNodes.find? isEanTh = none → extract_ean soup = "") := by
  refine ⟨?_, by decide, ?_, ?_, ?_⟩
  · intro soup
    rw [extract_ean]
    cases soup.allNodes.find? isEanDt with
    | none => exact eanTableFallback_all_digit soup
    | some dt =>
      cases h : dt.findNextSibling "dd" with
      | none => simp [h, eanTableFallback_all_digit soup]
      | some dd => simp [h, digitsOnly_all_digit dd.getText]
  · intro a b
    rw [eanLabelMatches]
    have hdata : (a ++ "EAN" ++ b).data = a.data ++ "EAN".data ++ b.data := by
      simp [String.data_append]
    rw [hdata, List.map_append, List.map_append,
      show "EAN".data.map Char.toLower = "ean".data from by decide]
    exact listContainsSeq_append_mid _ _ _
  · intro a b
    rw [eanLabelMatches]
    have hdata : (a ++ "ean" ++ b).data = a.data ++ "ean".data ++ b.data := by
      simp [String.data_append]
    rw [hdata, List.map_append, List.map_append,
      show "ean".data.map Char.toLower = "ean".data from by decide]
    exact listContainsSeq_append_mid _ _ _
  · intro soup h1 h2
    simp [extract_ean, eanTableFallback, h1, h2]

/-- C7 amended, witnessed: on the empty document neither strategy matches
and the result is the empty string. -/
theorem extract_ean_digits_only_witness :
    emptySoup.allNodes.find? isEanDt = none ∧
    emptySoup.allNodes.find? isEanTh = none ∧
    extract_ean emptySoup = "" :=
  ⟨by decide, by decide,
   extract_ean_digits_only.2.2.2.2 emptySoup (by decide) (by decide)⟩

/-- C8: the engine call succeeds with a fully assembled record for every
valid-host URL whatever the document looks like (field misses are never
errors — the embedding returns a total record); a document with no brand
container yields `brand = ""`; on a document where every query fails, every
field takes its empty/absent default; the only error path is the invalid
input URL. -/
theorem best_effort_record :
    (∀ (url : String) (render : String → Soup),
      strContains (urlparse_netloc url) "bol.com" = true →
      scrape_bol_product url render = Except.ok (buildRecord url (render url))) ∧
    (∀ soup : Soup,
      soup.selectOne "div[data-test=\"brand\"] a" = none →
      soup.selectOne "div[data-test=\"brand\"]" = none →
      extract_brand soup = "") ∧
    buildRecord "https://www.bol.com/p" emptySoup =
      { source_url := "https://www.bol.com/p", title := "", brand := "",
        price_text := "", price_value := none, list_price_text := "",
        list_price_value := none, ean := "", description := "",
        main_image := "", all_images := "" } ∧
    scrape_bol_product "https://www.bol.com/p" (fun _ => emptySoup) =
      Except.ok (buildRecord "https://www.bol.com/p" emptySoup) := by
  refine ⟨?_, ?_, by decide, by rfl⟩
  · intro url render h
    have hne : (urlparse_netloc url).isEmpty = false := by
      rw [Bool.eq_false_iff]
      intro hc
      rw [String.isEmpty_iff] at hc
      rw [hc] at h
      exact absurd h (by decide)
    simp [scrape_bol_product, h, hne]
  · intro soup h1 h2
    simp [extract_brand, h1, h2]

/-- C8, witnessed: a valid bol.com URL with the all-miss document gives a
successful, fully defaulted record, and the brand-free document yields an
empty brand. -/
theorem best_effort_record_witness :
    strContains (urlparse_netloc "https://www.bol.com/p") "bol.com" = true ∧
    scrape_bol_product "https://www.bol.com/p" (fun _ => emptySoup) =
      Except.ok (buildRecord "https://www.bol.com/p" emptySoup) ∧
    emptySoup.selectOne "div[data-test=\"brand\"] a" = none ∧
    extract_brand emptySoup = "" :=
  ⟨by decide,
   best_effort_record.1 "https://www.bol.com/p" (fun _ => emptySoup) (by decide),
   by decide,
   best_effort_record.2.1 emptySoup (by decide) (by decide)⟩

/-- C9: because `to_float_price` replaces every comma with a period before
parsing, `"1.299,99"` cleans to `"1.299.99"` (two dots) and returns `None`;
`"1.299"` parses to the value one-point-299, not 1299; and in general a
single period between digit runs is always read as the decimal
separator. -/
theorem period_is_decimal_separator :
    to_float_price "1.299,99" = none ∧
    to_float_price "1.299" = some (1299 / 1000 : ℚ) ∧
    (1299 / 1000 : ℚ) ≠ 1299 ∧
    (∀ ds fs : List Char, ds.all Char.isDigit = true → fs.all Char.isDigit = true →
      ds ≠ [] →
      to_float_price ⟨ds ++ '.' :: fs⟩ =
        some ((digitsToNat ds : ℚ) + (digitsToNat fs : ℚ) / (10 : ℚ) ^ fs.length)) := by
  refine ⟨by decide, to_float_price_1_299, by norm_num, ?_⟩
  intro ds fs hd hf hne
  exact to_float_price_dot hd hf hne

/-- C9, witnessed: the decimal-separator clause applied at `"1"` and
`"299"`, the digit runs of `"1.299"`. -/
theorem period_is_decimal_separator_witness :
    (['1'] : List Char).all Char.isDigit = true ∧
    (['2', '9', '9'] : List Char).all Char.isDigit = true ∧
    (['1'] : List Char) ≠ [] ∧
    to_float_price ⟨['1'] ++ '.' :: ['2', '9', '9']⟩ =
      some ((digitsToNat ['1'] : ℚ) + (digitsToNat ['2', '9', '9'] : ℚ) /
        (10 : ℚ) ^ (['2', '9', '9'] : List Char).length) :=
  ⟨by decide, by decide, by decide,
   period_is_decimal_separator.2.2.2 ['1'] ['2', '9', '9'] (by decide) (by decide)
     (by decide)⟩

/-- C10: when the definition-list title node matching the EAN label exists
but has no following `dd` sibling, `extract_ean` falls through to the
table-header strategy and returns its result; only when the matching title
node does have a `dd` sibling is the table fallback skipped (the `dd`'s
digits are returned directly).  Concretely, a document whose matching `dt`
has no `dd` still reads `12345` out of the table row. -/
theorem ean_dt_without_dd_falls_through :
    (∀ (soup : Soup) (dt : Element),
      soup.allNodes.find? isEanDt = some dt →
      dt.findNextSibling "dd" = none →
      extract_ean soup = eanTableFallback soup) ∧
    (∀ (soup : Soup) (dt : Element) (dd : SibNode),
      soup.allNodes.find? isEanDt = some dt →
      dt.findNextSibling "dd" = some dd →
      extract_ean soup = digitsOnly dd.getText) ∧
    extract_ean soupDtNoDd = "12345" ∧
    eanTableFallback soupDtNoDd = "12345" := by
  refine ⟨?_, ?_, by decide, by decide⟩
  · intro soup dt h1 h2
    simp [extract_ean, h1, h2]
  · intro soup dt dd h1 h2
    simp [extract_ean, h1, h2]

/-- C10, witnessed: the fall-through clause applied at the concrete
document whose matching `dt` has no `dd` sibling. -/
theorem ean_dt_without_dd_falls_through_witness :
    soupDtNoDd.allNodes.find? isEanDt = some dtNoDdElem ∧
    dtNoDdElem.findNextSibling "dd" = none ∧
    extract_ean soupDtNoDd = eanTableFallback soupDtNoDd :=
  ⟨by decide, by decide,
   ean_dt_without_dd_falls_through.1 soupDtNoDd dtNoDdElem (by decide) (by decide)⟩

end BolScraper
